import Mathlib

/-!
# Verification of the sageTSDB time-series core and its Python examples

The repository ships the Python example layer (`stream_join_dag_example.py`,
`advanced_dag_example.py`, `basic_dag_example.py`) on top of a native
`sage_tsdb` core that is exposed through bindings only.  The example
functions (`join_streams`, `detect_anomalies`, `compute_window_statistics`)
are embedded here directly from their Python sources; the core store/query
engine and the aggregation/score contracts, whose implementation is not part
of the source tree, are modelled from the specification.

Numeric samples are embedded as rationals (the Python layer uses float64,
which the claims treat as exact arithmetic); standard deviations, which the
examples obtain from `np.std`, are real numbers via `Real.sqrt`.
-/

namespace SageTSDB

/-- Modelled from the spec: a stored sample — `{timestamp: integer (ms epoch),
value: float64, tags: mapping<string,string>}`. -/
structure Point where
  timestamp : Int
  value : ℚ
  tags : List (String × String)
deriving DecidableEq, Repr

/-- Modelled from the spec: `TimeRange` with inclusive integer bounds. -/
structure TimeRange where
  start_time : Int
  end_time : Int
deriving DecidableEq, Repr

/-- The store is the canonical sequence of ingested points in insertion
order; `add` appends (spec §4.1: the Point Store is append-optimized and a
point is identified by an insertion-order id). -/
def Store := List Point

/-- Modelled from the spec: `add(timestamp, value, tags)` appends a new point
to the store, never rejecting out-of-order timestamps. -/
def add (s : List Point) (timestamp : Int) (value : ℚ)
    (tags : List (String × String)) : List Point :=
  s ++ [⟨timestamp, value, tags⟩]

/-- The Time Index order on insertion-indexed points: ascending by timestamp,
ties broken by the insertion-order counter (spec §4.2 and design note on
insertion-order tagging). -/
def entryLE (a b : Nat × Point) : Prop :=
  a.2.timestamp < b.2.timestamp ∨
    (a.2.timestamp = b.2.timestamp ∧ a.1 ≤ b.1)

instance : DecidableRel entryLE := fun a b => by
  unfold entryLE; infer_instance

instance : IsTotal (Nat × Point) entryLE where
  total a b := by
    rcases lt_trichotomy a.2.timestamp b.2.timestamp with h | h | h
    · exact Or.inl (Or.inl h)
    · rcases Nat.le_total a.1 b.1 with h' | h'
      · exact Or.inl (Or.inr ⟨h, h'⟩)
      · exact Or.inr (Or.inr ⟨h.symm, h'⟩)
    · exact Or.inr (Or.inl h)

instance : IsTrans (Nat × Point) entryLE where
  trans a b c hab hbc := by
    rcases hab with h1 | ⟨e1, l1⟩
    · rcases hbc with h2 | ⟨e2, _⟩
      · exact Or.inl (h1.trans h2)
      · exact Or.inl (e2 ▸ h1)
    · rcases hbc with h2 | ⟨e2, l2⟩
      · exact Or.inl (e1 ▸ h2)
      · exact Or.inr ⟨e1.trans e2, l1.trans l2⟩

/-- Whether a timestamp lies in the inclusive range. -/
def inRange (tr : TimeRange) (t : Int) : Bool :=
  tr.start_time ≤ t && t ≤ tr.end_time

/-- Modelled from the spec: `query(time_range)` (default config — no tag
filter, ascending order, no limit).  Validates the range (an inverted range
yields the empty sequence), then performs the Time Index range scan:
insertion-indexed points sorted ascending by timestamp with ties broken by
insertion order, restricted to the inclusive range. -/
def query (tr : TimeRange) (s : List Point) : List Point :=
  if tr.end_time < tr.start_time then []
  else
    ((List.insertionSort entryLE s.enum).filter
        (fun e => inRange tr e.2.timestamp)).map Prod.snd

/-- Membership in the enumerated store projects to membership in the store. -/
lemma snd_mem_of_mem_enum {s : List Point} {e : Nat × Point}
    (h : e ∈ s.enum) : e.2 ∈ s := by
  have h' := List.mem_enum_iff_getElem?.mp h
  exact List.getElem?_mem h'

/-- A point is in the store iff some insertion index pairs with it in the
enumerated store. -/
lemma mem_iff_exists_enum {s : List Point} {p : Point} :
    p ∈ s ↔ ∃ i, (i, p) ∈ s.enum := by
  constructor
  · intro hp
    obtain ⟨i, hi⟩ := List.mem_iff_getElem?.mp hp
    exact ⟨i, List.mk_mem_enum_iff_getElem?.mpr hi⟩
  · rintro ⟨i, hi⟩
    exact snd_mem_of_mem_enum hi

/-- Characterization of query membership: for any range, exactly the stored
points whose timestamps lie in the inclusive range are returned. -/
lemma mem_query_iff {tr : TimeRange} {s : List Point} {p : Point} :
    p ∈ query tr s ↔
      p ∈ s ∧ tr.start_time ≤ p.timestamp ∧ p.timestamp ≤ tr.end_time := by
  unfold query
  by_cases h : tr.end_time < tr.start_time
  · simp only [if_pos h, List.not_mem_nil, false_iff]
    rintro ⟨-, h1, h2⟩
    omega
  · simp only [if_neg h, List.mem_map, List.mem_filter,
      (List.perm_insertionSort entryLE s.enum).mem_iff]
    constructor
    · rintro ⟨e, ⟨he, hr⟩, rfl⟩
      simp only [inRange, Bool.and_eq_true, decide_eq_true_eq] at hr
      exact ⟨snd_mem_of_mem_enum he, hr⟩
    · rintro ⟨hp, h1, h2⟩
      obtain ⟨i, hi⟩ := mem_iff_exists_enum.mp hp
      refine ⟨(i, p), ⟨hi, ?_⟩, rfl⟩
      simp [inRange, h1, h2]

/-- The empty store answers every range with the empty sequence. -/
lemma query_nil (tr : TimeRange) : query tr ([] : List Point) = [] := by
  unfold query
  split <;> simp [List.insertionSort]

/-- C1: for every sequence of `add()` calls, in any timestamp order, a query
over a range covering all stored timestamps returns the points sorted
ascending by timestamp with ties broken by insertion order; in particular,
after inserting points at timestamps `[100, 50, 200]` each with value `1`,
`query ⟨0, 150⟩` returns exactly the points at `50` and `100`, in that
order. -/
theorem query_full_range_sorted :
    (∀ (s : List Point) (tr : TimeRange),
        (∀ p ∈ s, tr.start_time ≤ p.timestamp ∧ p.timestamp ≤ tr.end_time) →
        ∃ l : List (Nat × Point),
          l.Perm s.enum ∧ List.Sorted entryLE l ∧
            query tr s = l.map Prod.snd) ∧
    query ⟨0, 150⟩ [⟨100, 1, []⟩, ⟨50, 1, []⟩, ⟨200, 1, []⟩] =
      [⟨50, 1, []⟩, ⟨100, 1, []⟩] := by
  constructor
  · intro s tr hcover
    by_cases h : tr.end_time < tr.start_time
    · rcases s with _ | ⟨p, s'⟩
      · exact ⟨[], by simp, List.sorted_nil, by simp [query_nil]⟩
      · obtain ⟨h1, h2⟩ := hcover p (List.mem_cons_self p s')
        omega
    · refine ⟨List.insertionSort entryLE s.enum,
        List.perm_insertionSort _ _, List.sorted_insertionSort _ _, ?_⟩
      unfold query
      rw [if_neg h]
      congr 1
      rw [List.filter_eq_self]
      intro e he
      have he' : e ∈ s.enum := (List.perm_insertionSort entryLE s.enum).mem_iff.mp he
      obtain ⟨h1, h2⟩ := hcover e.2 (snd_mem_of_mem_enum he')
      simp [inRange, h1, h2]
  · decide

/-- Witness for C1 at the concrete store `[100, 50, 200]` with a covering
range. -/
theorem query_full_range_sorted_witness :
    ∃ l : List (Nat × Point),
      l.Perm ([⟨100, 1, []⟩, ⟨50, 1, []⟩, ⟨200, 1, []⟩] : List Point).enum ∧
      List.Sorted entryLE l ∧
      query ⟨0, 300⟩ [⟨100, 1, []⟩, ⟨50, 1, []⟩, ⟨200, 1, []⟩] =
        l.map Prod.snd :=
  query_full_range_sorted.1 [⟨100, 1, []⟩, ⟨50, 1, []⟩, ⟨200, 1, []⟩]
    ⟨0, 300⟩ (by decide)

/-- C4: for every valid `TimeRange`, the query returns exactly the stored
points whose timestamps lie within the inclusive bounds (no out-of-range
point returned, no in-range point omitted); when `start_time = end_time` it
returns exactly the points at that timestamp, and the empty store yields the
empty sequence. -/
theorem query_range_complete (s : List Point) (tr : TimeRange)
    (_hvalid : tr.start_time ≤ tr.end_time) :
    (∀ p, p ∈ query tr s ↔
        p ∈ s ∧ tr.start_time ≤ p.timestamp ∧ p.timestamp ≤ tr.end_time) ∧
    (tr.start_time = tr.end_time →
      ∀ p, p ∈ query tr s ↔ p ∈ s ∧ p.timestamp = tr.start_time) ∧
    query tr ([] : List Point) = [] := by
  refine ⟨fun p => mem_query_iff, fun heq p => ?_, query_nil tr⟩
  rw [mem_query_iff]
  constructor
  · rintro ⟨hp, h1, h2⟩
    exact ⟨hp, by omega⟩
  · rintro ⟨hp, ht⟩
    exact ⟨hp, by omega, by omega⟩

/-- Witness for C4 at a one-point store and the valid range `⟨0, 10⟩`. -/
theorem query_range_complete_witness :
    ((⟨0, 10⟩ : TimeRange).start_time ≤ (⟨0, 10⟩ : TimeRange).end_time) ∧
    ((∀ p, p ∈ query ⟨0, 10⟩ [⟨5, 2, []⟩] ↔
        p ∈ ([⟨5, 2, []⟩] : List Point) ∧
          (⟨0, 10⟩ : TimeRange).start_time ≤ p.timestamp ∧
            p.timestamp ≤ (⟨0, 10⟩ : TimeRange).end_time) ∧
      ((⟨0, 10⟩ : TimeRange).start_time = (⟨0, 10⟩ : TimeRange).end_time →
        ∀ p, p ∈ query ⟨0, 10⟩ [⟨5, 2, []⟩] ↔
          p ∈ ([⟨5, 2, []⟩] : List Point) ∧
            p.timestamp = (⟨0, 10⟩ : TimeRange).start_time) ∧
      query ⟨0, 10⟩ ([] : List Point) = []) :=
  ⟨by decide, query_range_complete [⟨5, 2, []⟩] ⟨0, 10⟩ (by decide)⟩

/-- C8: a `TimeRange` with `start_time > end_time` makes `query` return the
empty sequence; `query` is a total function on all ranges, so no error is
ever signalled. -/
theorem query_inverted_range_empty (s : List Point) (tr : TimeRange)
    (h : tr.end_time < tr.start_time) : query tr s = [] := by
  unfold query
  rw [if_pos h]

/-- Witness for C8 at the inverted range `⟨5, 3⟩`. -/
theorem query_inverted_range_empty_witness :
    (⟨5, 3⟩ : TimeRange).end_time < (⟨5, 3⟩ : TimeRange).start_time ∧
    query ⟨5, 3⟩ [⟨4, 1, []⟩] = [] :=
  ⟨by decide, query_inverted_range_empty [⟨4, 1, []⟩] ⟨5, 3⟩ (by decide)⟩

/-! ## Stream join (`examples/python/stream_join_dag_example.py`) -/

/-- One element of a stream as built by `generate_stream_data`:
`{"timestamp": ..., "value": ..., "stream_id": ..., "sequence": ...}`. -/
structure SData where
  timestamp : Int
  value : ℚ
  stream_id : String
  sequence : Nat
deriving DecidableEq, Repr

/-- The sort key used by `join_streams`: `key=lambda x: x["timestamp"]`. -/
def sLE (a b : SData) : Prop := a.timestamp ≤ b.timestamp

instance : DecidableRel sLE := fun a b => by
  unfold sLE; infer_instance

instance : IsTotal SData sLE where
  total a b := Int.le_total a.timestamp b.timestamp

instance : IsTrans SData sLE where
  trans _ _ _ hab hbc := Int.le_trans hab hbc

/-- Embeds `join_streams` from `stream_join_dag_example.py`: sort both
streams by timestamp (Python's `sorted` is a stable copying sort, embedded
as `List.insertionSort`), then for each left point in sorted order append a
pair for every right point within the tolerance window
(`abs(left["timestamp"] - right["timestamp"]) <= window_size`). -/
def join_streams (left_stream right_stream : List SData)
    (window_size : Int) : List (SData × SData) :=
  let left_sorted := List.insertionSort sLE left_stream
  let right_sorted := List.insertionSort sLE right_stream
  left_sorted.flatMap fun left_data =>
    (right_sorted.filter fun right_data =>
        decide (|left_data.timestamp - right_data.timestamp| ≤ window_size)).map
      fun right_data => (left_data, right_data)

/-- Embeds `join_streams` together with the final values of its local
variables: the Python body binds `left_sorted`/`right_sorted` to copies
produced by `sorted(...)` and never rebinds or mutates `left_stream` and
`right_stream`, so the function returns with both parameters still holding
their original lists.  The second component is the final value of
`(left_stream, right_stream)`, the third of `(left_sorted, right_sorted)`. -/
def join_streams_vars (left_stream right_stream : List SData)
    (window_size : Int) :
    List (SData × SData) × (List SData × List SData) ×
      (List SData × List SData) :=
  let left_sorted := List.insertionSort sLE left_stream
  let right_sorted := List.insertionSort sLE right_stream
  let joined_pairs := left_sorted.flatMap fun left_data =>
    (right_sorted.filter fun right_data =>
        decide (|left_data.timestamp - right_data.timestamp| ≤ window_size)).map
      fun right_data => (left_data, right_data)
  (joined_pairs, (left_stream, right_stream), (left_sorted, right_sorted))

/-- Counting pairs produced from one left point: `(l, r)` occurs in the
pairs built for left point `l'` exactly when `l' = l`, once per occurrence
of `r` among the matched right points. -/
lemma count_map_pair (l r l' : SData) (xs : List SData) :
    ((xs.map fun r' => (l', r')).count (l, r)) =
      if l' = l then xs.count r else 0 := by
  induction xs with
  | nil => simp
  | cons x xs ih =>
    simp only [List.map_cons, List.count_cons, ih, beq_iff_eq,
      Prod.mk.injEq]
    by_cases h : l' = l
    · subst h
      by_cases h2 : x = r
      · subst h2; simp
      · simp [h2]
    · simp [h]

/-- Counting `r` among the right points matched against `l`. -/
lemma count_filter_near (l r : SData) (w : Int) (rs : List SData) :
    ((rs.filter fun r' =>
        decide (|l.timestamp - r'.timestamp| ≤ w)).count r) =
      if |l.timestamp - r.timestamp| ≤ w then rs.count r else 0 := by
  by_cases h : |l.timestamp - r.timestamp| ≤ w
  · rw [if_pos h]
    exact List.count_filter (by simpa using h)
  · rw [if_neg h]
    refine List.count_eq_zero_of_not_mem ?_
    intro hmem
    exact h (by simpa using (List.mem_filter.mp hmem).2)

/-- Multiplicity of a pair in the nested-loop join over already-sorted
streams. -/
lemma count_flatMap_join (ls rs : List SData) (w : Int) (l r : SData) :
    ((ls.flatMap fun l' =>
        (rs.filter fun r' =>
            decide (|l'.timestamp - r'.timestamp| ≤ w)).map
          fun r' => (l', r')).count (l, r)) =
      ls.count l *
        (if |l.timestamp - r.timestamp| ≤ w then rs.count r else 0) := by
  induction ls with
  | nil => simp
  | cons a ls ih =>
    rw [List.flatMap_cons, List.count_append, ih, count_map_pair,
      List.count_cons]
    by_cases h : a = l
    · subst h
      rw [if_pos rfl, count_filter_near]
      by_cases hn : |a.timestamp - r.timestamp| ≤ w
      · simp only [if_pos hn, beq_self_eq_true, if_true]
        ring
      · simp [hn]
    · rw [if_neg h]
      simp [h, beq_iff_eq]

/-- The multiplicity law for `join_streams`: a pair `(l, r)` appears exactly
`count l left * count r right` times when the timestamps are within the
tolerance, and never otherwise. -/
lemma count_join_streams (L R : List SData) (w : Int) (l r : SData) :
    (join_streams L R w).count (l, r) =
      if |l.timestamp - r.timestamp| ≤ w then L.count l * R.count r
      else 0 := by
  unfold join_streams
  rw [count_flatMap_join, (List.perm_insertionSort sLE L).count_eq,
    (List.perm_insertionSort sLE R).count_eq]
  by_cases h : |l.timestamp - r.timestamp| ≤ w
  · rw [if_pos h, if_pos h]
  · rw [if_neg h, if_neg h, Nat.mul_zero]

/-- C2: the join pairs exactly those (left, right) pairs whose absolute
timestamp difference is at most the tolerance (inclusive bound), each with
full multiplicity; in particular
`join_streams [(0,v)] [(4,v), (6,v)] 5` returns exactly the single pair
`((0,v),(4,v))`, excluding the right point at timestamp `6`. -/
theorem join_pairs_exactly_within_tolerance :
    (∀ (L R : List SData) (w : Int) (l r : SData),
        (join_streams L R w).count (l, r) =
          if |l.timestamp - r.timestamp| ≤ w then L.count l * R.count r
          else 0) ∧
    join_streams [⟨0, 1, "left", 0⟩]
        [⟨4, 1, "right", 0⟩, ⟨6, 1, "right", 1⟩] 5 =
      [(⟨0, 1, "left", 0⟩, ⟨4, 1, "right", 0⟩)] :=
  ⟨count_join_streams, by decide⟩

/-- C6: the join output is grouped by left point, the groups follow the left
points in ascending timestamp order over a rearrangement of the left input,
and within each group the matched right points are drawn in ascending
timestamp order from a rearrangement of the right input. -/
theorem join_output_grouped_sorted (L R : List SData) (w : Int) :
    ∃ ls rs : List SData,
      ls.Perm L ∧ rs.Perm R ∧
      List.Sorted sLE ls ∧ List.Sorted sLE rs ∧
      join_streams L R w =
        (ls.flatMap fun l =>
          (rs.filter fun r =>
              decide (|l.timestamp - r.timestamp| ≤ w)).map
            fun r => (l, r)) ∧
      ∀ l : SData,
        List.Sorted sLE
          (rs.filter fun r => decide (|l.timestamp - r.timestamp| ≤ w)) := by
  refine ⟨List.insertionSort sLE L, List.insertionSort sLE R,
    List.perm_insertionSort _ _, List.perm_insertionSort _ _,
    List.sorted_insertionSort _ _, List.sorted_insertionSort _ _, rfl, ?_⟩
  intro l
  exact (List.sorted_insertionSort sLE R).filter _

/-- C7: the join is symmetric in content — `join(A,B,t)` and `join(B,A,t)`
contain exactly the same pairs with the two elements swapped, multiplicity
included. -/
theorem join_symmetric (A B : List SData) (t : Int) (l r : SData) :
    (join_streams A B t).count (l, r) = (join_streams B A t).count (r, l) := by
  rw [count_join_streams, count_join_streams,
    abs_sub_comm l.timestamp r.timestamp]
  by_cases h : |r.timestamp - l.timestamp| ≤ t
  · rw [if_pos h, if_pos h, Nat.mul_comm]
  · rw [if_neg h, if_neg h]

/-- C9: `join_streams` works on sorted copies and leaves both input lists
unchanged — on return the parameters still hold their original lists, and
the returned pairs are those of `join_streams`. -/
theorem join_streams_inputs_unchanged (L R : List SData) (w : Int) :
    (join_streams_vars L R w).2.1 = (L, R) ∧
    (join_streams_vars L R w).1 = join_streams L R w :=
  ⟨rfl, rfl⟩

/-! ## Statistics, anomaly scoring and window aggregation
(`examples/python/advanced_dag_example.py` and spec §4.5–4.6) -/

/-- `np.mean` over the embedded rational samples (only ever applied to
nonempty sample lists by the guarded callers). -/
def npMean (vals : List ℚ) : ℚ := vals.sum / (vals.length : ℚ)

/-- The population variance, the square of `np.std`. -/
def npVariance (vals : List ℚ) : ℚ :=
  ((vals.map fun x => (x - npMean vals) ^ 2).sum) / (vals.length : ℚ)

/-- `np.std`: the population standard deviation,
`sqrt(mean((x - mean)^2))`. -/
noncomputable def npStd (vals : List ℚ) : ℝ :=
  Real.sqrt ((npVariance vals : ℚ) : ℝ)

lemma npVariance_nonneg (vals : List ℚ) : 0 ≤ npVariance vals := by
  unfold npVariance
  refine div_nonneg (List.sum_nonneg ?_) (by positivity)
  intro x hx
  obtain ⟨y, -, rfl⟩ := List.mem_map.mp hx
  positivity

lemma npStd_nonneg (vals : List ℚ) : 0 ≤ npStd vals :=
  Real.sqrt_nonneg _

/-- The standard deviation vanishes exactly when the variance does. -/
lemma npStd_eq_zero_iff (vals : List ℚ) :
    npStd vals = 0 ↔ npVariance vals = 0 := by
  unfold npStd
  rw [Real.sqrt_eq_zero (by exact_mod_cast npVariance_nonneg vals)]
  exact_mod_cast Iff.rfl

/-- One element of the multi-sensor stream built by
`generate_multi_sensor_data`: `{"timestamp": ..., "value": ...,
"sensor_id": ..., "location": ..., "type": ...}`. -/
structure SensorData where
  timestamp : Int
  value : ℚ
  sensor_id : String
  location : String
  type : String
deriving DecidableEq, Repr

/-- The record appended by `detect_anomalies` for each input point: the
input dictionary extended with the `is_anomaly`, `anomaly_score` and
`historical_count` keys. -/
structure AnomalyResult where
  data : SensorData
  is_anomaly : Prop
  anomaly_score : ℝ
  historical_count : Nat

/-- Embeds `detect_anomalies` from `advanced_dag_example.py`: for each point
it queries the last 30 seconds, and when more than 5 historical points exist
and their standard deviation is positive (tested on the variance, which is
positive exactly when `np.std` is) it computes
`z_score = abs((value - mean) / std)` and flags `z_score > threshold_std`;
otherwise score 0 and no flag. -/
noncomputable def detect_anomalies (db : List Point)
    (data_points : List SensorData) (threshold_std : ℝ) :
    List AnomalyResult :=
  data_points.map fun data =>
    let historical := query ⟨data.timestamp - 30000, data.timestamp⟩ db
    if 5 < historical.length then
      let values := historical.map Point.value
      if 0 < npVariance values then
        let z_score := |((data.value : ℝ) - (npMean values : ℚ)) / npStd values|
        ⟨data, threshold_std < z_score, z_score, historical.length⟩
      else ⟨data, False, 0, historical.length⟩
    else ⟨data, False, 0, historical.length⟩

/-- Modelled from the spec: the core anomaly `score(value, baseline_points)`
contract (§4.6) is implemented by the native engine and is not under `src/`:
it computes `|value - mean(baseline_points)| / std(baseline_points)` and is
defined as 0 when `std == 0` or `count(baseline_points) <= 1`.  The zero-std
test is expressed on the rational variance, which vanishes exactly when the
standard deviation does. -/
noncomputable def score (value : ℚ) (baseline_points : List ℚ) : ℝ :=
  if baseline_points.length ≤ 1 then 0
  else if npVariance baseline_points = 0 then 0
  else |(value : ℝ) - (npMean baseline_points : ℚ)| / npStd baseline_points

/-- C3: the anomaly score is `|value - mean| / std` whenever the baseline
supports it, it is `0` when the standard deviation is zero or the baseline
has at most one point, and in the insufficient-baseline case the
caller-visible `is_anomaly` flag of `detect_anomalies` is false. -/
theorem score_zscore_contract :
    (∀ (v : ℚ) (b : List ℚ), 2 ≤ b.length → npStd b ≠ 0 →
        score v b = |(v : ℝ) - (npMean b : ℚ)| / npStd b) ∧
    (∀ (v : ℚ) (b : List ℚ), npStd b = 0 ∨ b.length ≤ 1 →
        score v b = 0) ∧
    (∀ (db : List Point) (pts : List SensorData) (thr : ℝ),
        List.Forall₂
          (fun _ res => res.historical_count ≤ 1 → ¬ res.is_anomaly)
          pts (detect_anomalies db pts thr)) := by
  refine ⟨fun v b hlen hstd => ?_, fun v b h => ?_, fun db pts thr => ?_⟩
  · unfold score
    rw [if_neg (by omega), if_neg fun h => hstd ((npStd_eq_zero_iff b).mpr h)]
  · unfold score
    rcases h with h | h
    · by_cases hl : b.length ≤ 1
      · rw [if_pos hl]
      · rw [if_neg hl, if_pos ((npStd_eq_zero_iff b).mp h)]
    · rw [if_pos h]
  · unfold detect_anomalies
    rw [List.forall₂_map_right_iff, List.forall₂_same]
    intro d _
    dsimp only
    split_ifs with h1 h2
    · intro hc
      dsimp only at hc
      omega
    · intro _ hF
      exact hF
    · intro _ hF
      exact hF

/-- Witness for C3: at `value = 3` over the baseline `[0, 2]` (mean `1`,
standard deviation `1`) the score is the z-score, and a one-point baseline
scores `0`. -/
theorem score_zscore_contract_witness :
    (2 ≤ ([0, 2] : List ℚ).length ∧ npStd [0, 2] ≠ 0 ∧
      score 3 [0, 2] = |((3 : ℚ) : ℝ) - (npMean [0, 2] : ℚ)| / npStd [0, 2]) ∧
    score 3 [5] = 0 := by
  have h1 : npVariance [0, 2] = 1 := by
    norm_num [npVariance, npMean]
  have hstd : npStd [0, 2] ≠ 0 := by
    simp [npStd, h1]
  exact ⟨⟨by decide, hstd, score_zscore_contract.1 3 [0, 2] (by decide) hstd⟩,
    score_zscore_contract.2.1 3 [5] (Or.inr (by decide))⟩

/-- C10: `detect_anomalies` returns one result per input point, in order;
each result carries the input point unchanged together with the historical
count of the 30-second window query, a nonnegative anomaly score, and a flag
that is raised only when the score exceeds the threshold and the historical
query returned more than 5 points. -/
theorem detect_anomalies_results (db : List Point)
    (data_points : List SensorData) (threshold_std : ℝ) :
    List.Forall₂
      (fun d res =>
        res.data = d ∧
        res.historical_count =
          (query ⟨d.timestamp - 30000, d.timestamp⟩ db).length ∧
        0 ≤ res.anomaly_score ∧
        (res.is_anomaly →
          threshold_std < res.anomaly_score ∧ 5 < res.historical_count))
      data_points (detect_anomalies db data_points threshold_std) := by
  unfold detect_anomalies
  rw [List.forall₂_map_right_iff, List.forall₂_same]
  intro d _
  dsimp only
  split_ifs with h1 h2
  · exact ⟨rfl, rfl, abs_nonneg _, fun h => ⟨h, h1⟩⟩
  · exact ⟨rfl, rfl, le_refl 0, fun h => h.elim⟩
  · exact ⟨rfl, rfl, le_refl 0, fun h => h.elim⟩

/-- The `aggregations` dictionary built by `compute_window_statistics`: in
the empty-window branch only `count` (as `0`) is present, so each statistic
field is optional. -/
structure WindowAgg where
  count : Nat
  mean : Option ℚ
  std : Option ℝ
  min : Option ℚ
  max : Option ℚ

/-- The record appended by `compute_window_statistics` for each input point:
the input dictionary extended with `has_aggregation` and, on every 10th
point, the `aggregations` dictionary. -/
structure StatResult where
  data : SensorData
  aggregations : Option WindowAgg
  has_aggregation : Bool

/-- Embeds `compute_window_statistics` from `advanced_dag_example.py`: every
10th point queries the last 30 seconds and reports
`{count, mean, std, min, max}` when the window is nonempty and `{count: 0}`
(no other field) when it is empty; all other points carry no aggregation. -/
noncomputable def compute_window_statistics (db : List Point)
    (data_points : List SensorData) : List StatResult :=
  data_points.enum.map fun e =>
    if (e.1 + 1) % 10 = 0 then
      let recent_data := query ⟨e.2.timestamp - 30000, e.2.timestamp⟩ db
      let aggregations : WindowAgg :=
        if recent_data ≠ [] then
          let values := recent_data.map Point.value
          ⟨values.length, some (npMean values), some (npStd values),
            values.min?, values.max?⟩
        else ⟨0, none, none, none, none⟩
      ⟨e.2, some aggregations, true⟩
    else ⟨e.2, none, false⟩

/-- The spec's `AggregationResult` `{count, mean, std, min, max}`; when
`count == 0` the statistic fields are reported as absent. -/
structure AggregationResult where
  count : Nat
  mean : Option ℚ
  std : Option ℝ
  min : Option ℚ
  max : Option ℚ

/-- Modelled from the spec: the core Aggregation Engine
`aggregate(points) -> AggregationResult` (§4.5) is implemented by the native
engine and is not under `src/`: a pure function computing count, arithmetic
mean, population standard deviation, min and max, with `count == 0` yielding
a result whose statistic fields are absent (never NaN, never a division by
zero). -/
noncomputable def aggregate (points : List Point) : AggregationResult :=
  if points.length = 0 then ⟨0, none, none, none, none⟩
  else
    let values := points.map Point.value
    ⟨values.length, some (npMean values), some (npStd values),
      values.min?, values.max?⟩

/-- C5: an aggregation over zero points reports `count = 0` with every other
statistic field absent — in `compute_window_statistics` the reported
`aggregations` have `count = 0` exactly when mean/std/min/max are all
absent, in the spec-modelled `aggregate` a zero count forces every statistic
field to be absent, and on the empty store
`aggregate (query ⟨0, 1000⟩ [])` is the all-absent zero-count result. -/
theorem aggregation_empty_reports_zero :
    (∀ (db : List Point) (pts : List SensorData) (r : StatResult),
        r ∈ compute_window_statistics db pts →
        ∀ a, r.aggregations = some a →
          (a.count = 0 ↔
            a.mean = none ∧ a.std = none ∧ a.min = none ∧ a.max = none)) ∧
    (∀ points : List Point, (aggregate points).count = 0 →
        (aggregate points).mean = none ∧ (aggregate points).std = none ∧
          (aggregate points).min = none ∧ (aggregate points).max = none) ∧
    aggregate (query ⟨0, 1000⟩ ([] : List Point)) =
      ⟨0, none, none, none, none⟩ := by
  refine ⟨fun db pts r hr a ha => ?_, fun points hc => ?_, ?_⟩
  · obtain ⟨e, -, rfl⟩ := List.mem_map.mp hr
    dsimp only at ha
    split_ifs at ha with h10 hne
    · rw [Option.some_inj] at ha
      subst ha
      constructor
      · intro h0
        dsimp only at h0
        rw [List.length_map, List.length_eq_zero] at h0
        exact absurd h0 hne
      · rintro ⟨hm, -⟩
        dsimp only at hm
        exact absurd hm (Option.some_ne_none _)
    · rw [Option.some_inj] at ha
      subst ha
      exact ⟨fun _ => ⟨rfl, rfl, rfl, rfl⟩, fun _ => rfl⟩
  · unfold aggregate at hc ⊢
    split_ifs at hc ⊢ with h
    · exact ⟨rfl, rfl, rfl, rfl⟩
    · dsimp only at hc
      rw [List.length_map] at hc
      exact absurd hc h
  · rw [query_nil]
    simp [aggregate]

/-- Witness for C5: the spec-modelled `aggregate` on the empty point list
reports `count = 0`, and every statistic field is absent. -/
theorem aggregation_empty_reports_zero_witness :
    (aggregate ([] : List Point)).count = 0 ∧
    ((aggregate ([] : List Point)).mean = none ∧
      (aggregate ([] : List Point)).std = none ∧
      (aggregate ([] : List Point)).min = none ∧
      (aggregate ([] : List Point)).max = none) :=
  ⟨rfl, aggregation_empty_reports_zero.2.1 [] rfl⟩

end SageTSDB
